import Mathlib

/-
  Shallow embedding of the course-management views of this repository:
  src/courses/views.py (ownership-scoped CRUD, module/content editing,
  reorder endpoints) and src/courses/api/views.py (enrollment API).
  Machine integers do not overflow in any of this code (ids and order
  values are database integers), so ids are Nat and order values Int.
-/

namespace MeLearn

/-- The four polymorphic content-item models of the courses app
(Text, File, Image, Video). -/
inductive ItemType where
  | text
  | file
  | image
  | video
deriving DecidableEq, Repr

/-- A Course row: owner foreign key and the many-to-many student set
(modelled as the list of user ids in insertion order, no duplicates are
ever inserted by `m2m_add`). -/
structure Course where
  id : Nat
  owner : Nat
  students : List Nat
deriving DecidableEq, Repr

/-- A Module row: belongs to one Course, has a client-supplied order. -/
structure Module where
  id : Nat
  courseId : Nat
  order : Int
  title : String
deriving DecidableEq, Repr

/-- A Content row: the join entity wrapping one polymorphic item,
carrying module linkage and an order. The generic foreign key is the
pair (itemType, itemId). -/
structure Content where
  id : Nat
  moduleId : Nat
  itemType : ItemType
  itemId : Nat
  order : Int
deriving DecidableEq, Repr

/-- An item row in one of the four item tables; `itemType` says which
table, `data` stands for the item's own submitted fields. -/
structure Item where
  id : Nat
  itemType : ItemType
  owner : Nat
  data : String
deriving DecidableEq, Repr

/-- The persistent store visible to these views, with the id sequences
used for row creation. -/
structure St where
  courses : List Course
  modules : List Module
  contents : List Content
  items : List Item
  nextItemId : Nat
  nextContentId : Nat
deriving DecidableEq, Repr

/-- Owner of the course with the given id, if present. -/
def courseOwner (courses : List Course) (cid : Nat) : Option Nat :=
  (courses.find? (fun c => c.id == cid)).map (fun c => c.owner)

/-- The ownership chain module.course.owner == u. -/
def moduleOwnedBy (courses : List Course) (m : Module) (u : Nat) : Bool :=
  courseOwner courses m.courseId == some u

/-- The ownership chain content.module.course.owner == u. -/
def contentOwnedBy (courses : List Course) (modules : List Module)
    (c : Content) (u : Nat) : Bool :=
  match modules.find? (fun m => m.id == c.moduleId) with
  | some m => moduleOwnedBy courses m u
  | none => false

/- ### Ownership-scoped CRUD controller (OwnerCourseMixin pipeline) -/

/-- Outcome of a request to CourseUpdateView / CourseDeleteView. -/
inductive ManageOutcome where
  | loginRedirect
  | permissionDenied
  | notFound
  | found (c : Course)
deriving DecidableEq, Repr

/-- OwnerMixin.get_queryset: the Course queryset filtered to
owner == request.user. -/
def ownerQueryset (courses : List Course) (u : Nat) : List Course :=
  courses.filter (fun c => c.owner == u)

/-- The dispatch pipeline shared by CourseUpdateView and CourseDeleteView
(OwnerCourseMixin = OwnerMixin + LoginRequiredMixin +
PermissionRequiredMixin, then the generic view's get_object):
1. LoginRequiredMixin: unauthenticated -> redirect to login;
2. PermissionRequiredMixin: authenticated user missing the view's
   permission_required ("courses.change_course" for update,
   "courses.delete_course" for delete) -> PermissionDenied (403);
3. get_object on the owner-filtered queryset: no row with pk in the
   filtered queryset -> Http404. -/
def courseManageDispatch (courses : List Course) (user : Option Nat)
    (perms : List String) (required : String) (pk : Nat) : ManageOutcome :=
  match user with
  | none => ManageOutcome.loginRedirect
  | some u =>
    if perms.contains required then
      match (ownerQueryset courses u).find? (fun c => c.id == pk) with
      | some c => ManageOutcome.found c
      | none => ManageOutcome.notFound
    else ManageOutcome.permissionDenied

/-- Claim C1, counterexample: an authenticated principal (user 1) who is
not the owner of course 1 (owned by user 0) but lacks the
"courses.change_course" permission receives a permission error, not a
not-found error, so the claim as stated over every authenticated
non-owner is false. -/
theorem course_nonowner_permission_counterexample :
    courseManageDispatch [⟨1, 0, []⟩] (some 1) [] "courses.change_course" 1
      = ManageOutcome.permissionDenied ∧
    ManageOutcome.permissionDenied ≠ ManageOutcome.notFound := by
  decide

/-- Claim C1 (amended): for every course store, every authenticated
principal u that holds the required permission and owns no course with
the requested pk, an update or delete request resolves to not-found
(never a permission error), because the queryset is pre-filtered to
owner == u before the pk lookup. -/
theorem course_update_delete_nonowner_notFound
    (courses : List Course) (u : Nat) (perms : List String)
    (required : String) (pk : Nat)
    (hperm : perms.contains required = true)
    (hnonowner : ∀ c ∈ courses, c.id = pk → c.owner ≠ u) :
    courseManageDispatch courses (some u) perms required pk
      = ManageOutcome.notFound := by
  unfold courseManageDispatch
  rw [hperm]
  simp only [if_true]
  have hfind : (ownerQueryset courses u).find? (fun c => c.id == pk) = none := by
    rw [List.find?_eq_none]
    intro c hc
    rcases (List.mem_filter.mp hc) with ⟨hmem, hown⟩
    have hco : c.owner = u := by simpa using hown
    intro hid
    exact hnonowner c hmem (by simpa using hid) hco
  rw [hfind]

/-- Claim C1, witness: user 1 holds "courses.change_course", course 1 is
owned by user 0, and the update request by user 1 yields not-found. -/
theorem course_update_delete_nonowner_notFound_witness :
    courseManageDispatch [⟨1, 0, []⟩] (some 1) ["courses.change_course"]
      "courses.change_course" 1 = ManageOutcome.notFound :=
  course_update_delete_nonowner_notFound [⟨1, 0, []⟩] 1
    ["courses.change_course"] "courses.change_course" 1
    (by decide) (by decide)

/- ### Ordering endpoints (ModuleOrderView, ContentOrderView) -/

/-- The loop shared by both reorder views: for each (id, order) pair of
the posted JSON map, issue the scoped bulk update
`rows.filter(id == given id AND owned-by-requester).update(order=o)`.
`idOf` reads a row's pk, `ownedBy` is the ownership-chain filter and
`setOrd` writes the order column. -/
def batchOrderUpdate (idOf : α → Nat) (ownedBy : α → Bool)
    (setOrd : α → Int → α) (pairs : List (Nat × Int)) (rows : List α) :
    List α :=
  pairs.foldl
    (fun rs p =>
      rs.map (fun r => if idOf r == p.1 && ownedBy r then setOrd r p.2 else r))
    rows

/-- The order assigned to id `i` by the batch, if any: the last pair for
`i` wins (a JSON object cannot repeat a key, so at most one exists). -/
def lastOrd : List (Nat × Int) → Nat → Option Int
  | [], _ => none
  | p :: ps, i =>
    match lastOrd ps i with
    | some o => some o
    | none => if p.1 == i then some p.2 else none

/-- ModuleOrderView.post: scoped update of each module id in the batch,
then the fixed acknowledgement body {"saved": "OK"}. -/
def ModuleOrderView_post (courses : List Course) (modules : List Module)
    (u : Nat) (pairs : List (Nat × Int)) : List Module × (String × String) :=
  (batchOrderUpdate (fun m => m.id) (fun m => moduleOwnedBy courses m u)
      (fun m o => { m with order := o }) pairs modules,
   ("saved", "OK"))

/-- ContentOrderView.post: scoped update of each content id in the batch,
then the fixed acknowledgement body {"saved": "Ok"}. -/
def ContentOrderView_post (courses : List Course) (modules : List Module)
    (contents : List Content) (u : Nat) (pairs : List (Nat × Int)) :
    List Content × (String × String) :=
  (batchOrderUpdate (fun c => c.id) (fun c => contentOwnedBy courses modules c u)
      (fun c o => { c with order := o }) pairs contents,
   ("saved", "Ok"))

/-- Closed form of the batch loop: when writing the order column changes
neither the pk nor the ownership chain and overwrites commute into the
last write, the whole batch acts on each row independently — an owned
row whose id is in the batch gets its last assigned order, every other
row is returned unchanged. -/
theorem batchOrderUpdate_eq_map (idOf : α → Nat) (ownedBy : α → Bool)
    (setOrd : α → Int → α)
    (hid : ∀ r o, idOf (setOrd r o) = idOf r)
    (hown : ∀ r o, ownedBy (setOrd r o) = ownedBy r)
    (hlast : ∀ r o o', setOrd (setOrd r o) o' = setOrd r o') :
    ∀ (pairs : List (Nat × Int)) (rows : List α),
      batchOrderUpdate idOf ownedBy setOrd pairs rows =
        rows.map (fun r =>
          match lastOrd pairs (idOf r), ownedBy r with
          | some o, true => setOrd r o
          | _, _ => r) := by
  intro pairs
  induction pairs with
  | nil =>
    intro rows
    unfold batchOrderUpdate
    simp only [List.foldl_nil, lastOrd]
    have hfun : (fun r : α =>
        match (none : Option Int), ownedBy r with
        | some o, true => setOrd r o
        | _, _ => r) = fun r => r := by
      funext r
      cases ownedBy r <;> rfl
    rw [hfun, List.map_id']
  | cons p ps ih =>
    intro rows
    have hstep : batchOrderUpdate idOf ownedBy setOrd (p :: ps) rows =
        batchOrderUpdate idOf ownedBy setOrd ps
          (rows.map (fun r =>
            if idOf r == p.1 && ownedBy r then setOrd r p.2 else r)) := by
      unfold batchOrderUpdate
      simp [List.foldl_cons]
    rw [hstep, ih, List.map_map]
    apply List.map_congr_left
    intro r _
    simp only [Function.comp]
    by_cases hc : (idOf r == p.1 && ownedBy r) = true
    · obtain ⟨hidp, hownr⟩ : (idOf r == p.1) = true ∧ ownedBy r = true := by
        simpa using hc
      have hidp' : idOf r = p.1 := by simpa using hidp
      rw [if_pos hc, hid, hown, hownr, hidp']
      show (match lastOrd ps p.1, true with
            | some o, true => setOrd (setOrd r p.2) o
            | _, _ => setOrd r p.2) =
          (match lastOrd (p :: ps) p.1, true with
            | some o, true => setOrd r o
            | _, _ => r)
      show _ = (match (match lastOrd ps p.1 with
                       | some o => some o
                       | none => if p.1 == p.1 then some p.2 else none), true with
                | some o, true => setOrd r o
                | _, _ => r)
      cases hl : lastOrd ps p.1 with
      | some o => simp [hl, hlast]
      | none => simp [hl]
    · rw [if_neg hc]
      cases hownr : ownedBy r with
      | false =>
        show (match lastOrd ps (idOf r), false with
              | some o, true => setOrd r o
              | _, _ => r) =
            (match lastOrd (p :: ps) (idOf r), false with
              | some o, true => setOrd r o
              | _, _ => r)
        cases lastOrd ps (idOf r) <;> cases lastOrd (p :: ps) (idOf r) <;> rfl
      | true =>
        have hidp : (idOf r == p.1) = false := by
          cases hip : (idOf r == p.1) with
          | false => rfl
          | true => exact absurd (by simp [hip, hownr]) hc
        have hcons : lastOrd (p :: ps) (idOf r) = lastOrd ps (idOf r) := by
          show (match lastOrd ps (idOf r) with
                | some o => some o
                | none => if p.1 == idOf r then some p.2 else none) = _
          have hpi : (p.1 == idOf r) = false := by
            cases hip : (p.1 == idOf r) with
            | false => rfl
            | true =>
              have : p.1 = idOf r := by simpa using hip
              rw [this] at hidp
              simp at hidp
          cases lastOrd ps (idOf r) <;> simp [hpi]
        rw [hcons]

/-- Claim C2: for both reorder endpoints, the batch acts on each row
independently — a row whose id carries an order in the batch and whose
ownership chain matches the requester has exactly its order column set
to that value, and every other row (foreign-owned or not in the batch)
is returned entirely unchanged, with no error raised. -/
theorem reorder_scoped_independent (courses : List Course)
    (modules : List Module) (contents : List Content) (u : Nat)
    (pairs : List (Nat × Int)) :
    (ModuleOrderView_post courses modules u pairs).1 =
      modules.map (fun m =>
        match lastOrd pairs m.id, moduleOwnedBy courses m u with
        | some o, true => { m with order := o }
        | _, _ => m) ∧
    (ContentOrderView_post courses modules contents u pairs).1 =
      contents.map (fun c =>
        match lastOrd pairs c.id, contentOwnedBy courses modules c u with
        | some o, true => { c with order := o }
        | _, _ => c) := by
  constructor
  · exact batchOrderUpdate_eq_map (fun m : Module => m.id)
      (fun m => moduleOwnedBy courses m u)
      (fun (m : Module) (o : Int) => { m with order := o })
      (fun r o => rfl) (fun r o => rfl) (fun r o o' => rfl) pairs modules
  · exact batchOrderUpdate_eq_map (fun c : Content => c.id)
      (fun c => contentOwnedBy courses modules c u)
      (fun (c : Content) (o : Int) => { c with order := o })
      (fun r o => rfl) (fun r o => rfl) (fun r o o' => rfl) pairs contents

/-- Claim C3, counterexample: the content reorder endpoint does not
respond with {"saved": "OK"} — its body is {"saved": "Ok"} (lowercase k),
so the two endpoints do not share the claimed payload. -/
theorem reorder_response_counterexample :
    (ContentOrderView_post [] [] [] 0 []).2 ≠ ("saved", "OK") := by
  decide

/-- Claim C3 (amended): each reorder endpoint responds with its own fixed
acknowledgement payload for every batch, regardless of how many pairs
matched an owned row — {"saved": "OK"} for modules and {"saved": "Ok"}
for contents; the two payloads differ in case. -/
theorem reorder_response_fixed (courses : List Course)
    (modules : List Module) (contents : List Content) (u : Nat)
    (pairs : List (Nat × Int)) :
    (ModuleOrderView_post courses modules u pairs).2 = ("saved", "OK") ∧
    (ContentOrderView_post courses modules contents u pairs).2 = ("saved", "Ok") :=
  ⟨rfl, rfl⟩

/- ### Content item editor (ContentCreateUpdateView) -/

/-- The app registry lookup apps.get_model(app_label="courses",
model_name=...): resolves the item model class named by the string from
the courses app's registered item models. -/
def appsGetModel (model_name : String) : Option ItemType :=
  match model_name with
  | "text" => some ItemType.text
  | "file" => some ItemType.file
  | "image" => some ItemType.image
  | "video" => some ItemType.video
  | _ => none

/-- ContentCreateUpdateView.get_model: return the model for a whitelisted
type name, None otherwise. -/
def get_model (model_name : String) : Option ItemType :=
  if ["text", "file", "image", "video"].contains model_name then
    appsGetModel model_name
  else
    none

/-- Result of ContentCreateUpdateView.dispatch. `serverError` is the
exception path: get_object_or_404 raises ValueError (not Http404) when
its first argument is None rather than a model. -/
inductive EditorDispatch where
  | notFound
  | serverError
  | proceed (model : Option ItemType) (obj : Option Nat)
deriving DecidableEq, Repr

/-- ContentCreateUpdateView.dispatch: resolve the module scoped to
course__owner == requester (404 if absent), resolve the model from the
type name (None kept when unknown), and when an id is supplied load the
existing item scoped to owner == requester (404 if absent; ValueError
when the model is None). -/
def ContentCreateUpdateView_dispatch (st : St) (u : Nat) (module_id : Nat)
    (model_name : String) (id : Option Nat) : EditorDispatch :=
  match st.modules.find? (fun m => m.id == module_id && moduleOwnedBy st.courses m u) with
  | none => EditorDispatch.notFound
  | some _ =>
    let model := get_model model_name
    match id with
    | none => EditorDispatch.proceed model none
    | some i =>
      match model with
      | none => EditorDispatch.serverError
      | some t =>
        match st.items.find? (fun it => it.id == i && it.itemType == t && it.owner == u) with
        | none => EditorDispatch.notFound
        | some _ => EditorDispatch.proceed model (some i)

/-- Outcome of a full GET request to the content item editor. -/
inductive EditorGetOutcome where
  | notFound
  | serverError
  | renderForm (t : ItemType) (obj : Option Nat)
deriving DecidableEq, Repr

/-- ContentCreateUpdateView.get after dispatch: build the model form for
self.model and render it. modelform_factory raises AttributeError when
handed None instead of a model, so an unknown type name that survived
dispatch (no id supplied) errors here rather than rendering. -/
def ContentCreateUpdateView_get (st : St) (u : Nat) (module_id : Nat)
    (model_name : String) (id : Option Nat) : EditorGetOutcome :=
  match ContentCreateUpdateView_dispatch st u module_id model_name id with
  | EditorDispatch.notFound => EditorGetOutcome.notFound
  | EditorDispatch.serverError => EditorGetOutcome.serverError
  | EditorDispatch.proceed none _ => EditorGetOutcome.serverError
  | EditorDispatch.proceed (some t) obj => EditorGetOutcome.renderForm t obj

/-- A store with one course owned by user 0 and one module in it, used as
the concrete instance for the editor claims. -/
def editorStore : St :=
  { courses := [⟨1, 0, []⟩]
    modules := [⟨1, 1, 0, "m"⟩]
    contents := []
    items := []
    nextItemId := 1
    nextContentId := 1 }

/-- Claim C4, counterexample: with module 1 owned by requester 0, a
request naming the unknown type "quiz" does not resolve to a not-found
error — get_model returns None and the request fails with a server error
(None passed where a model is required). -/
theorem content_type_unknown_counterexample :
    get_model "quiz" = none ∧
    ContentCreateUpdateView_get editorStore 0 1 "quiz" none
      = EditorGetOutcome.serverError ∧
    EditorGetOutcome.serverError ≠ EditorGetOutcome.notFound := by
  constructor
  · rfl
  · exact ⟨rfl, by decide⟩

/-- Claim C4 (amended): for each of the four whitelisted type names the
model of that exact type is resolved and the editor targets it; for any
name outside the whitelist no model is resolved (get_model returns None)
and the request fails with an error — a server error from using the
missing model, not a not-found error. -/
theorem content_type_resolution (st : St) (u : Nat) (module_id : Nat)
    (hmod : st.modules.find?
      (fun m => m.id == module_id && moduleOwnedBy st.courses m u) ≠ none) :
    (get_model "text" = some ItemType.text ∧
     get_model "file" = some ItemType.file ∧
     get_model "image" = some ItemType.image ∧
     get_model "video" = some ItemType.video ∧
     ContentCreateUpdateView_get st u module_id "text" none
       = EditorGetOutcome.renderForm ItemType.text none ∧
     ContentCreateUpdateView_get st u module_id "file" none
       = EditorGetOutcome.renderForm ItemType.file none ∧
     ContentCreateUpdateView_get st u module_id "image" none
       = EditorGetOutcome.renderForm ItemType.image none ∧
     ContentCreateUpdateView_get st u module_id "video" none
       = EditorGetOutcome.renderForm ItemType.video none) ∧
    ∀ name : String, get_model name = none →
      ContentCreateUpdateView_get st u module_id name none
        = EditorGetOutcome.serverError := by
  obtain ⟨m, hm⟩ : ∃ m, st.modules.find?
      (fun m => m.id == module_id && moduleOwnedBy st.courses m u) = some m := by
    cases hfind : st.modules.find?
        (fun m => m.id == module_id && moduleOwnedBy st.courses m u) with
    | none => exact absurd hfind hmod
    | some m => exact ⟨m, rfl⟩
  constructor
  · refine ⟨rfl, rfl, rfl, rfl, ?_, ?_, ?_, ?_⟩ <;>
      simp [ContentCreateUpdateView_get, ContentCreateUpdateView_dispatch, hm,
        get_model, appsGetModel]
  · intro name hname
    simp [ContentCreateUpdateView_get, ContentCreateUpdateView_dispatch, hm, hname]

/-- Claim C4, witness: in the concrete store, the unknown name "quiz"
resolves no model and the GET request yields a server error, by the
amended theorem. -/
theorem content_type_resolution_witness :
    ContentCreateUpdateView_get editorStore 0 1 "quiz" none
      = EditorGetOutcome.serverError :=
  (content_type_resolution editorStore 0 1 (by decide)).2 "quiz" (by decide)

/-- Outcome of a POST to the content item editor. -/
inductive EditorPostOutcome where
  | redirectContentList (module_id : Nat)
  | renderErrors
deriving DecidableEq, Repr

/-- The order given to a freshly created Content row. Modelled from the
spec: "creates a new Content row linking the Module to the item with a
fresh order" — the Content model's order field (src/courses/models.py is
not in src/) assigns the next order within the module. -/
def contentFreshOrder (st : St) (module_id : Nat) : Int :=
  ((st.contents.filter (fun c => c.moduleId == module_id)).length : Int)

/-- ContentCreateUpdateView.post after dispatch resolved model `t` (and,
when `id` is supplied, the existing owned item): validate the form; on
success save the item with owner stamped to the requester, and only when
no id was supplied create one Content row linking the module to the
item; redirect to the module's content list. On failure re-render with
errors, leaving the store untouched. -/
def ContentCreateUpdateView_post (st : St) (u : Nat) (module_id : Nat)
    (t : ItemType) (id : Option Nat) (formValid : Bool) (formData : String) :
    St × EditorPostOutcome :=
  if formValid then
    match id with
    | none =>
      let obj : Item := ⟨st.nextItemId, t, u, formData⟩
      let st1 : St :=
        { st with items := st.items ++ [obj], nextItemId := st.nextItemId + 1 }
      let newContent : Content :=
        ⟨st1.nextContentId, module_id, t, obj.id, contentFreshOrder st1 module_id⟩
      ({ st1 with
          contents := st1.contents ++ [newContent]
          nextContentId := st1.nextContentId + 1 },
       EditorPostOutcome.redirectContentList module_id)
    | some i =>
      ({ st with
          items := st.items.map (fun it =>
            if it.id == i && it.itemType == t then
              { it with owner := u, data := formData }
            else it) },
       EditorPostOutcome.redirectContentList module_id)
  else
    (st, EditorPostOutcome.renderErrors)

/-- Claim C5: a successful POST with no id creates exactly one new
Content row, linking the named module to the newly saved item; a
successful POST with an id updates the existing item and never creates a
Content row (the content table is unchanged). -/
theorem content_post_row_creation (st : St) (u : Nat) (module_id : Nat)
    (t : ItemType) (formData : String) :
    ((ContentCreateUpdateView_post st u module_id t none true formData).1.contents =
       st.contents ++
         [⟨st.nextContentId, module_id, t, st.nextItemId,
           contentFreshOrder st module_id⟩] ∧
     (ContentCreateUpdateView_post st u module_id t none true formData).1.contents.length =
       st.contents.length + 1 ∧
     (ContentCreateUpdateView_post st u module_id t none true formData).1.items =
       st.items ++ [⟨st.nextItemId, t, u, formData⟩]) ∧
    ∀ i : Nat,
      (ContentCreateUpdateView_post st u module_id t (some i) true formData).1.contents =
        st.contents ∧
      (ContentCreateUpdateView_post st u module_id t (some i) true formData).1.items =
        st.items.map (fun it =>
          if it.id == i && it.itemType == t then
            { it with owner := u, data := formData }
          else it) := by
  refine ⟨⟨rfl, by simp [ContentCreateUpdateView_post], rfl⟩, fun i => ⟨rfl, rfl⟩⟩

/-- Claim C10: updating an existing item (id supplied) through the
editor leaves the content table, the module table, the course table and
the id sequences untouched for every module_id the URL may name — only
the matching item row changes, and only its data fields and owner stamp;
the item's existing Content/module linkage is never rewritten. -/
theorem content_update_preserves_linkage (st : St) (u : Nat)
    (module_id : Nat) (t : ItemType) (i : Nat) (formData : String) :
    (ContentCreateUpdateView_post st u module_id t (some i) true formData).1.contents =
      st.contents ∧
    (ContentCreateUpdateView_post st u module_id t (some i) true formData).1.modules =
      st.modules ∧
    (ContentCreateUpdateView_post st u module_id t (some i) true formData).1.courses =
      st.courses ∧
    (ContentCreateUpdateView_post st u module_id t (some i) true formData).1.nextContentId =
      st.nextContentId ∧
    (ContentCreateUpdateView_post st u module_id t (some i) true formData).1.items =
      st.items.map (fun it =>
        if it.id == i && it.itemType == t then
          { it with owner := u, data := formData }
        else it) ∧
    (ContentCreateUpdateView_post st u module_id t (some i) true formData).2 =
      EditorPostOutcome.redirectContentList module_id :=
  ⟨rfl, rfl, rfl, rfl, rfl, rfl⟩

/- ### Content deletion (ContentDeleteView) -/

/-- One row deletion issued to the store, in the order the view issues
them. -/
inductive DelEvent where
  | delItem (t : ItemType) (i : Nat)
  | delContent (c : Nat)
deriving DecidableEq, Repr

/-- ContentDeleteView.post: resolve the Content row scoped to
module__course__owner == requester (404 when absent, returning none);
then, in one request, delete the underlying item first and the Content
row second, and redirect to that module's content list. The returned
trace records the two deletions in issue order. -/
def ContentDeleteView_post (st : St) (u : Nat) (id : Nat) :
    Option (St × List DelEvent × Nat) :=
  match st.contents.find?
      (fun c => c.id == id && contentOwnedBy st.courses st.modules c u) with
  | none => none
  | some content =>
    let st1 : St :=
      { st with items := st.items.filter (fun it =>
          !(it.itemType == content.itemType && it.id == content.itemId)) }
    let st2 : St :=
      { st1 with contents := st1.contents.filter (fun c => !(c.id == id)) }
    some (st2,
      [DelEvent.delItem content.itemType content.itemId, DelEvent.delContent id],
      content.moduleId)

/-- Claim C6: when the scoped lookup finds the Content row, the deletion
request removes, in one step, both the underlying item (deleted first)
and the Content row (deleted second), no matching row of either table
survives, every other course/module row is untouched, and the request
redirects to that content's module. -/
theorem content_delete_removes_pair (st : St) (u : Nat) (id : Nat)
    (content : Content)
    (h : st.contents.find?
        (fun c => c.id == id && contentOwnedBy st.courses st.modules c u)
      = some content) :
    ∃ st' : St,
      ContentDeleteView_post st u id =
        some (st',
          [DelEvent.delItem content.itemType content.itemId,
           DelEvent.delContent id],
          content.moduleId) ∧
      st'.items = st.items.filter (fun it =>
        !(it.itemType == content.itemType && it.id == content.itemId)) ∧
      st'.contents = st.contents.filter (fun c => !(c.id == id)) ∧
      (∀ it ∈ st'.items,
        ¬(it.itemType = content.itemType ∧ it.id = content.itemId)) ∧
      (∀ c ∈ st'.contents, c.id ≠ id) ∧
      st'.courses = st.courses ∧ st'.modules = st.modules := by
  refine ⟨{ st with
      items := st.items.filter (fun it =>
        !(it.itemType == content.itemType && it.id == content.itemId))
      contents := st.contents.filter (fun c => !(c.id == id)) },
    ?_, rfl, rfl, ?_, ?_, rfl, rfl⟩
  · simp [ContentDeleteView_post, h]
  · intro it hit
    have := (List.mem_filter.mp hit).2
    intro hcontra
    rw [hcontra.1, hcontra.2] at this
    simp at this
  · intro c hc
    have := (List.mem_filter.mp hc).2
    intro hcontra
    rw [hcontra] at this
    simp at this

/-- A store with one course, one module, one text item and one Content
row wrapping it, all owned by user 0, used as the concrete instance for
the deletion claim. -/
def deleteStore : St :=
  { courses := [⟨1, 0, []⟩]
    modules := [⟨1, 1, 0, "m"⟩]
    contents := [⟨5, 1, ItemType.text, 9, 0⟩]
    items := [⟨9, ItemType.text, 0, "hello"⟩]
    nextItemId := 10
    nextContentId := 6 }

/-- Claim C6, witness: deleting Content 5 of the concrete store as its
owner removes both item (text, 9) and the Content row, in that order,
and redirects to module 1. -/
theorem content_delete_removes_pair_witness :
    ∃ st' : St,
      ContentDeleteView_post deleteStore 0 5 =
        some (st',
          [DelEvent.delItem ItemType.text 9, DelEvent.delContent 5], 1) ∧
      st'.items = deleteStore.items.filter (fun it =>
        !(it.itemType == ItemType.text && it.id == 9)) ∧
      st'.contents = deleteStore.contents.filter (fun c => !(c.id == 5)) ∧
      (∀ it ∈ st'.items, ¬(it.itemType = ItemType.text ∧ it.id = 9)) ∧
      (∀ c ∈ st'.contents, c.id ≠ 5) ∧
      st'.courses = deleteStore.courses ∧ st'.modules = deleteStore.modules :=
  content_delete_removes_pair deleteStore 0 5 ⟨5, 1, ItemType.text, 9, 0⟩
    (by decide)

/- ### Enrollment API (src/courses/api/views.py) -/

/-- The many-to-many add course.students.add(user): inserts the
membership row only when it is not already present, so a repeated add is
a no-op. -/
def m2m_add (students : List Nat) (u : Nat) : List Nat :=
  if students.contains u then students else students ++ [u]

/-- Outcome of a request to either enrollment entry point. -/
inductive EnrollOutcome where
  | unauthenticated
  | notFound
  | enrolled (courses : List Course) (body : String × Bool)
deriving DecidableEq, Repr

/-- The write to the course table performed by both entry points: the
row fetched by pk gets the requester added to its student set, every
other row is untouched. -/
def enrollUpdate (u pk : Nat) (c : Course) : Course :=
  if c.id == pk then { c with students := m2m_add c.students u } else c

/-- CourseEnrollView.post: IsAuthenticated gate, then
get_object_or_404(Course, pk=pk), then course.students.add(request.user)
and the fixed Response({"enrolled": True}). -/
def CourseEnrollView_post (courses : List Course) (user : Option Nat)
    (pk : Nat) : EnrollOutcome :=
  match user with
  | none => EnrollOutcome.unauthenticated
  | some u =>
    match courses.find? (fun c => c.id == pk) with
    | none => EnrollOutcome.notFound
    | some _ =>
      EnrollOutcome.enrolled (courses.map (enrollUpdate u pk)) ("enrolled", true)

/-- CourseViewSet.enroll: IsAuthenticated gate, then self.get_object()
over the unfiltered Course queryset (a pk lookup raising Http404 when
absent), then course.students.add(request.user) and the same fixed
Response({"enrolled": True}). -/
def CourseViewSet_enroll (courses : List Course) (user : Option Nat)
    (pk : Nat) : EnrollOutcome :=
  match user with
  | none => EnrollOutcome.unauthenticated
  | some u =>
    match courses.find? (fun c => c.id == pk) with
    | none => EnrollOutcome.notFound
    | some _ =>
      EnrollOutcome.enrolled (courses.map (enrollUpdate u pk)) ("enrolled", true)

theorem m2m_add_mem (s : List Nat) (u : Nat) : (m2m_add s u).contains u = true := by
  unfold m2m_add
  cases hc : s.contains u with
  | true => simpa using hc
  | false => simp

theorem m2m_add_idem (s : List Nat) (u : Nat) :
    m2m_add (m2m_add s u) u = m2m_add s u := by
  have h := m2m_add_mem s u
  show (if (m2m_add s u).contains u then m2m_add s u else m2m_add s u ++ [u])
    = m2m_add s u
  rw [h]
  simp

theorem enrollUpdate_id (u pk : Nat) (c : Course) :
    (enrollUpdate u pk c).id = c.id := by
  simp only [enrollUpdate]
  split <;> rfl

theorem enrollUpdate_idem (u pk : Nat) (c : Course) :
    enrollUpdate u pk (enrollUpdate u pk c) = enrollUpdate u pk c := by
  by_cases h : (c.id == pk) = true
  · have h1 : enrollUpdate u pk c = { c with students := m2m_add c.students u } := by
      simp only [enrollUpdate, if_pos h]
    rw [h1]
    have h2 : (({ c with students := m2m_add c.students u } : Course).id == pk)
      = true := h
    simp only [enrollUpdate, if_pos h2, m2m_add_idem]
  · have h1 : enrollUpdate u pk c = c := by
      simp only [enrollUpdate, if_neg h]
    rw [h1, h1]

/-- Claim C7: enrollment is idempotent — when the first enroll call
succeeds, it responds {"enrolled": true}, and a second call by the same
user on the resulting store, through either entry point, returns the
very same store (the student set keeps its size and membership) with the
same {"enrolled": true} response. -/
theorem enroll_idempotent (courses : List Course) (u : Nat) (pk : Nat)
    (courses₁ : List Course) (body : String × Bool)
    (h : CourseEnrollView_post courses (some u) pk
      = EnrollOutcome.enrolled courses₁ body) :
    body = ("enrolled", true) ∧
    CourseEnrollView_post courses₁ (some u) pk
      = EnrollOutcome.enrolled courses₁ ("enrolled", true) ∧
    CourseViewSet_enroll courses₁ (some u) pk
      = EnrollOutcome.enrolled courses₁ ("enrolled", true) := by
  unfold CourseEnrollView_post at h
  cases hfind : courses.find? (fun c => c.id == pk) with
  | none => rw [hfind] at h; exact absurd h (by simp)
  | some c0 =>
    rw [hfind] at h
    have h' : EnrollOutcome.enrolled (courses.map (enrollUpdate u pk))
        ("enrolled", true) = EnrollOutcome.enrolled courses₁ body := h
    obtain ⟨hc₁, hbody⟩ := EnrollOutcome.enrolled.inj h'
    refine ⟨hbody.symm, ?_⟩
    have hmem : c0 ∈ courses := List.mem_of_find?_eq_some hfind
    have hid : (c0.id == pk) = true := by
      have hp := List.find?_some hfind
      exact hp
    have hmem₁ : enrollUpdate u pk c0 ∈ courses₁ := by
      rw [← hc₁]
      exact List.mem_map_of_mem _ hmem
    have hsome : (courses₁.find? (fun c : Course => c.id == pk)).isSome = true := by
      rw [List.find?_isSome]
      refine ⟨enrollUpdate u pk c0, hmem₁, ?_⟩
      show ((enrollUpdate u pk c0).id == pk) = true
      rw [enrollUpdate_id]
      exact hid
    obtain ⟨c₁, hfind₁⟩ := Option.isSome_iff_exists.mp hsome
    have hmapfix : courses₁.map (enrollUpdate u pk) = courses₁ := by
      rw [← hc₁, List.map_map]
      exact List.map_congr_left (fun c _ => enrollUpdate_idem u pk c)
    constructor
    · unfold CourseEnrollView_post
      rw [hfind₁]
      exact congrArg (fun l => EnrollOutcome.enrolled l ("enrolled", true)) hmapfix
    · unfold CourseViewSet_enroll
      rw [hfind₁]
      exact congrArg (fun l => EnrollOutcome.enrolled l ("enrolled", true)) hmapfix

/-- Claim C7, witness: user 2 enrolling in course 1 (owned by user 0,
empty student set) yields students [2] and {"enrolled": true}; enrolling
again leaves the store identical with the same response. -/
theorem enroll_idempotent_witness :
    ("enrolled", true) = (("enrolled", true) : String × Bool) ∧
    CourseEnrollView_post [⟨1, 0, [2]⟩] (some 2) 1
      = EnrollOutcome.enrolled [⟨1, 0, [2]⟩] ("enrolled", true) ∧
    CourseViewSet_enroll [⟨1, 0, [2]⟩] (some 2) 1
      = EnrollOutcome.enrolled [⟨1, 0, [2]⟩] ("enrolled", true) :=
  enroll_idempotent [⟨1, 0, []⟩] 2 1 [⟨1, 0, [2]⟩] ("enrolled", true) (by decide)

/-- Claim C9: the standalone enroll endpoint and the viewset enroll
action are equivalent — for every store, principal (present or absent)
and pk they produce the same outcome: the same not-found/unauthenticated
failures, the same resulting student sets and the same
{"enrolled": true} body. -/
theorem enroll_entry_points_equivalent (courses : List Course)
    (user : Option Nat) (pk : Nat) :
    CourseEnrollView_post courses user pk = CourseViewSet_enroll courses user pk :=
  rfl

/- ### Module set editor (CourseModuleUpdateView) -/

/-- One row of the module formset: the bound Module instance if the row
edits an existing one, the row's validation verdict, its DELETE flag and
its submitted fields. -/
structure ModuleForm where
  instanceId : Option Nat
  valid : Bool
  markedDelete : Bool
  title : String
  order : Int
deriving DecidableEq, Repr

/-- Modelled from the spec: ModuleFormSet (declared in src/courses/forms.py,
which is not under src/) validates all rows together — the formset is
valid exactly when every row is. -/
def moduleFormSet_is_valid (rows : List ModuleForm) : Bool :=
  rows.all (fun r => r.valid)

/-- Modelled from the spec: ModuleFormSet.save applied to the course's
module set — each bound row updates its Module, each DELETE-marked bound
row removes it, and each filled extra row creates a Module of the
course; returns the module table and the advanced id sequence. -/
def moduleFormSet_save (courseId : Nat) (modules : List Module)
    (nextId : Nat) (rows : List ModuleForm) : List Module × Nat :=
  rows.foldl
    (fun acc r =>
      match r.instanceId with
      | some i =>
        if r.markedDelete then
          (acc.1.filter (fun m => !(m.id == i && m.courseId == courseId)), acc.2)
        else
          (acc.1.map (fun m =>
            if m.id == i && m.courseId == courseId then
              { m with title := r.title, order := r.order }
            else m), acc.2)
      | none =>
        if r.markedDelete then acc
        else (acc.1 ++ [⟨acc.2, courseId, r.order, r.title⟩], acc.2 + 1))
    (modules, nextId)

/-- Outcome of a POST to the module set editor. -/
inductive ModuleUpdateOutcome where
  | notFound
  | redirect (target : String)
  | renderFormsetErrors
deriving DecidableEq, Repr

/-- CourseModuleUpdateView.post: dispatch loads the course scoped to
owner == requester (404 when absent); then if the formset is valid it is
saved and the view redirects to the course list, otherwise the store is
untouched and the formset is re-rendered with its errors. -/
def CourseModuleUpdateView_post (courses : List Course) (modules : List Module)
    (nextId : Nat) (user : Nat) (pk : Nat) (rows : List ModuleForm) :
    (List Module × Nat) × ModuleUpdateOutcome :=
  match courses.find? (fun c => c.id == pk && c.owner == user) with
  | none => ((modules, nextId), ModuleUpdateOutcome.notFound)
  | some _ =>
    if moduleFormSet_is_valid rows then
      (moduleFormSet_save pk modules nextId rows,
       ModuleUpdateOutcome.redirect "manage_course_list")
    else
      ((modules, nextId), ModuleUpdateOutcome.renderFormsetErrors)

/-- Claim C8: for a course owned by the requester, the module formset is
all-or-nothing — the formset is invalid exactly when some row is, any
invalid row leaves every module row unpersisted and undeleted and
re-renders the formset with errors, and only a fully valid formset
persists all rows and redirects to the course list. -/
theorem module_formset_all_or_nothing (courses : List Course)
    (modules : List Module) (nextId : Nat) (u : Nat) (pk : Nat)
    (rows : List ModuleForm)
    (hcourse : courses.find? (fun c => c.id == pk && c.owner == u) ≠ none) :
    (moduleFormSet_is_valid rows = false ↔ ∃ r ∈ rows, r.valid = false) ∧
    (moduleFormSet_is_valid rows = false →
      CourseModuleUpdateView_post courses modules nextId u pk rows
        = ((modules, nextId), ModuleUpdateOutcome.renderFormsetErrors)) ∧
    (moduleFormSet_is_valid rows = true →
      CourseModuleUpdateView_post courses modules nextId u pk rows
        = (moduleFormSet_save pk modules nextId rows,
           ModuleUpdateOutcome.redirect "manage_course_list")) := by
  obtain ⟨c, hc⟩ : ∃ c, courses.find? (fun c => c.id == pk && c.owner == u) = some c := by
    cases hfind : courses.find? (fun c => c.id == pk && c.owner == u) with
    | none => exact absurd hfind hcourse
    | some c => exact ⟨c, rfl⟩
  refine ⟨?_, ?_, ?_⟩
  · unfold moduleFormSet_is_valid
    constructor
    · intro hfalse
      by_contra hno
      push_neg at hno
      have : rows.all (fun r => r.valid) = true := by
        rw [List.all_eq_true]
        intro r hr
        cases hv : r.valid with
        | true => rfl
        | false => exact absurd hv (by simpa using hno r hr)
      rw [this] at hfalse
      cases hfalse
    · rintro ⟨r, hr, hv⟩
      cases hall : rows.all (fun r => r.valid) with
      | false => rfl
      | true =>
        have := List.all_eq_true.mp hall r hr
        rw [hv] at this
        cases this
  · intro hfalse
    unfold CourseModuleUpdateView_post
    rw [hc, hfalse]
    rfl
  · intro htrue
    unfold CourseModuleUpdateView_post
    rw [hc, htrue]
    rfl

/-- Claim C8, witness: a course owned by user 0 with a two-row formset
whose second row is invalid — the submission is rejected whole, the
module table and id sequence are unchanged, and the formset re-renders
with errors. -/
theorem module_formset_all_or_nothing_witness :
    CourseModuleUpdateView_post [⟨1, 0, []⟩] [⟨1, 1, 0, "m"⟩] 2 0 1
      [⟨some 1, true, false, "a", 0⟩, ⟨none, false, false, "b", 1⟩]
      = (([⟨1, 1, 0, "m"⟩], 2), ModuleUpdateOutcome.renderFormsetErrors) :=
  (module_formset_all_or_nothing [⟨1, 0, []⟩] [⟨1, 1, 0, "m"⟩] 2 0 1
    [⟨some 1, true, false, "a", 0⟩, ⟨none, false, false, "b", 1⟩]
    (by decide)).2.1 (by decide)

end MeLearn
